import Mathlib

/-!
Verification of the `chr` command-line tool (src/main.rs), centred on the
`pick` subcommand: branch-pair resolution from the current branch name,
the exclusive-ancestry log query, author filtering, rendering, and the
batch cherry-pick over the oldest..newest commit range.

The external `git` binary is the program's single collaborator.  Every
`git` invocation is modelled by an entry of `GitEnv` (the data the call
returns) together with an `ExtCall` trace element (the fact that the call
was issued), so that theorems can speak both about the values the program
computes and about which external operations it performs.
-/

/-- Single-quote character, used when echoing names inside user-facing
messages (the Rust sources quote branch and user names with `'`). -/
def squote : String := String.singleton (Char.ofNat 39)

/-- Splitting a character list at every occurrence of a separator
character, keeping empty segments.  This is the semantics of Rust
`str::split` with a one-character pattern, as used by
`branch_name.split("-")` and `line.split("|")` in src/main.rs. -/
def splitCh (c : Char) : List Char → List (List Char)
  | [] => [[]]
  | a :: rest =>
    match splitCh c rest with
    | [] => [[a]]
    | g :: gs => if a = c then [] :: g :: gs else (a :: g) :: gs

/-- `splitCh` lifted to strings: the model of `s.split(pat).collect()` for
the one-character patterns `"-"` and `"|"` of src/main.rs. -/
def splitField (c : Char) (s : String) : List String :=
  (splitCh c s.data).map String.mk

/-- Rust `str::trim` on the underlying character list: drop whitespace
from both ends. -/
def trimChars (l : List Char) : List Char :=
  ((l.dropWhile Char.isWhitespace).reverse.dropWhile Char.isWhitespace).reverse

/-- Rust `str::trim`, applied in src/main.rs to command output and to the
hash/author/subject fields of a log line. -/
def trimStr (s : String) : String :=
  String.mk (trimChars s.data)

/-- Rust `str::starts_with`, modelling `branch_name.starts_with(prefix)`. -/
def startsWithStr (p s : String) : Bool :=
  p.data.isPrefixOf s.data

/-- The distinct `bail!` / `anyhow!` error exits of `pick` in src/main.rs.
Each format-related constructor carries the data interpolated into its
message (branch name, configured prefix, production suffix). -/
inductive ChrError where
  | invalidBranchFormat (branch pfx sp : String)
  | prefixMismatch (branch pfx sp : String)
  | cardExtract (branch : String)
  | prdNotFound (branch : String)
  | hmlNotFound (branch : String)
  | logFailed
  | noCommitsToPick

deriving instance Repr, DecidableEq for ChrError

/-- The branch pattern `<prefix><card-number><suffix_prd>` shown to the
user by both invalid-branch messages of src/main.rs. -/
def expectedPattern (pfx sp : String) : String :=
  pfx ++ "<card-number>" ++ sp

/-- The message `main`/`anyhow` prints for each error, transcribed from
the `bail!` format strings of src/main.rs. -/
def errorMessage : ChrError → String
  | ChrError.invalidBranchFormat b pfx sp =>
      "Current branch " ++ squote ++ b ++ squote ++ " doesn" ++ squote ++
        "t match the expected format " ++ squote ++ expectedPattern pfx sp ++ squote
  | ChrError.prefixMismatch b pfx sp =>
      "Current branch " ++ squote ++ b ++ squote ++ " doesn" ++ squote ++
        "t start with the expected prefix " ++ squote ++ pfx ++ squote ++
        "\nExpected format: " ++ squote ++ expectedPattern pfx sp ++ squote
  | ChrError.cardExtract b =>
      "Could not extract card number from branch name " ++ squote ++ b ++ squote
  | ChrError.prdNotFound b =>
      "Production branch " ++ squote ++ b ++ squote ++ " does not exist"
  | ChrError.hmlNotFound b =>
      "Homologation branch " ++ squote ++ b ++ squote ++ " does not exist"
  | ChrError.logFailed =>
      "Failed to get commit logs. Make sure both branches exist."
  | ChrError.noCommitsToPick =>
      "No commits to cherry-pick"

/-- The `pick` subcommand's arguments (struct `PickArgs` of src/main.rs):
`--count` (default 5), `--latest`, `--show`. -/
structure PickArgs where
  count : Nat
  latest : Bool
  show' : Bool

/-- The responses of the external `git` calls made during one `pick`
invocation: current branch name, reference existence, log exit status and
output lines, configured user name, linear commit history (oldest-first,
backing the `rev-list` model), the interactive confirmation answer, and
the cherry-pick exit status. -/
structure GitEnv where
  currentBranch : String
  branchExists : String → Bool
  logSuccess : Bool
  logLines : Nat → List String
  currentUser : String
  history : List String
  confirm : Bool
  cherryPickOk : Bool

/-- Trace of the external operations `pick` performs, in order. -/
inductive ExtCall where
  | showCurrent
  | revParseVerify (branch : String)
  | gitLog (hml prd : String) (count : Nat)
  | gitConfigUserName
  | confirmPrompt
  | gitRevList (range : String)
  | gitCherryPick (input : List String)

deriving instance Repr, DecidableEq for ExtCall

/-- The successful (exit-zero) terminal states of one `pick` invocation,
labelling which `Ok(())` return of src/main.rs was reached. -/
inductive Outcome where
  | emptyLatest (user : String)
  | emptyRange (hml prd : String)
  | noValidHashes
  | shownOnly
  | declined
  | applied
  | conflict

deriving instance Repr, DecidableEq for Outcome

/-- Result of one `pick` invocation: the returned `Result`, the ordered
trace of external calls, and the lines printed to standard output. -/
structure PickRun where
  result : Except ChrError Outcome
  calls : List ExtCall
  printed : List String

/-- Process exit code chosen by `main` (src/main.rs lines 88-91): 1 on
`Err`, 0 otherwise. -/
def mainExitCode : Except ChrError Outcome → Nat
  | Except.error _ => 1
  | Except.ok _ => 0

/-- Branch-pair resolution (src/main.rs lines 111-127): split the current
branch on `-`, require at least two components and the configured prefix,
extract the card number at index 1, and build the production and
homologation branch names. -/
def resolve (pfx sp sh branch_name : String) : Except ChrError (String × String) :=
  let parts := splitField '-' branch_name
  if parts.length < 2 then
    Except.error (ChrError.invalidBranchFormat branch_name pfx sp)
  else if (! startsWithStr pfx branch_name) then
    Except.error (ChrError.prefixMismatch branch_name pfx sp)
  else
    match parts.get? 1 with
    | none => Except.error (ChrError.cardExtract branch_name)
    | some card_number =>
        Except.ok (pfx ++ card_number ++ sp, pfx ++ card_number ++ sh)

/-- The author filter predicate of src/main.rs lines 170-173: a line is
kept when it splits on `|` into at least three fields and its trimmed
second field equals the current user. -/
def isRecordForUser (current_user line : String) : Bool :=
  let parts := splitField '|' line
  decide (3 ≤ parts.length) && (trimStr ((parts.get? 1).getD "") == current_user)

/-- Selection of the final lines (src/main.rs lines 167-177): with
`--latest` the author filter is applied, otherwise all log lines are
kept. -/
def selectLines (latest : Bool) (current_user : String) (lines : List String) : List String :=
  if latest then lines.filter (isRecordForUser current_user) else lines

/-- Rendering of one line (src/main.rs lines 188-203): a line with fewer
than three `|`-fields is printed verbatim; otherwise the trimmed hash,
colored trimmed author (green when it equals the current user, red
otherwise) and trimmed subject are printed with ` | ` separators. -/
def renderLine (current_user line : String) : String :=
  let parts := splitField '|' line
  if parts.length < 3 then line
  else
    let commit := trimStr ((parts.get? 0).getD "")
    let author := trimStr ((parts.get? 1).getD "")
    let message := trimStr ((parts.get? 2).getD "")
    let colored_author :=
      if author == current_user then "\x1b[32m" ++ author ++ "\x1b[0m"
      else "\x1b[31m" ++ author ++ "\x1b[0m"
    commit ++ " | " ++ colored_author ++ " | " ++ message

/-- The per-line closure of the hash extraction (src/main.rs lines
207-214): a line with at least three `|`-fields yields its trimmed first
field, any other line yields nothing. -/
def hashOfLine (line : String) : Option String :=
  let parts := splitField '|' line
  if 3 ≤ parts.length then some (trimStr ((parts.get? 0).getD "")) else none

/-- Hash extraction (src/main.rs lines 205-215): each line with at least
three `|`-fields contributes its trimmed first field; other lines
contribute nothing. -/
def commitHashes (lines : List String) : List String :=
  lines.filterMap hashOfLine

/-- Model of the external call `git rev-list --reverse oldest^..newest`
over a linear history given oldest-first: the commits from `oldest` to
`newest` inclusive, in chronological (oldest-first) order, exactly the
ancestry-ordering expansion the Cherry-Pick Applier feeds to the batch
cherry-pick. -/
def revListReverse (history : List String) (oldest newest : String) : List String :=
  (history.take (history.indexOf newest + 1)).drop (history.indexOf oldest)

/-- Outcome of the apply step: the formatted range string, the commit
sequence piped into `git cherry-pick --stdin`, and the cherry-pick exit
status. -/
structure ApplyResult where
  range : String
  input : List String
  ok : Bool

deriving instance Repr, DecidableEq for ApplyResult

/-- The apply step (src/main.rs lines 231-256): take `oldest` from the
tail and `newest` from the head of the hash list, format the range
`oldest^..newest`, expand it oldest-first via `git rev-list --reverse`,
and pipe the expansion into `git cherry-pick --stdin`.  `none` models the
(unreachable for non-empty input) `ok_or_else` failures. -/
def applyStep (history : List String) (cherry_ok : Bool) (commit_hashes : List String) :
    Option ApplyResult :=
  match commit_hashes.getLast?, commit_hashes.head? with
  | some oldest_commit, some newest_commit =>
      some { range := oldest_commit ++ "^.." ++ newest_commit,
             input := revListReverse history oldest_commit newest_commit,
             ok := cherry_ok }
  | _, _ => none

/-- The message printed when the cherry-pick batch exits non-zero
(src/main.rs line 261). -/
def conflictMessage : String :=
  "Cherry-pick operation failed. You may need to resolve conflicts."

/-- The part of `pick` from the log query onward (src/main.rs lines
147-265), given the already-resolved and existence-checked branch pair:
log query with the bound `100` under `--latest` and `--count` otherwise,
user lookup, author filtering, empty-selection messages, rendering, hash
extraction, `--show` early return, confirmation, and the apply step. -/
def pickSelection (args : PickArgs) (env : GitEnv) (hml_branch prd_branch : String) : PickRun :=
  let commit_count := if args.latest then 100 else args.count
  let logCall := ExtCall.gitLog hml_branch prd_branch commit_count
  if (! env.logSuccess) then
    { result := Except.error ChrError.logFailed, calls := [logCall], printed := [] }
  else
    let current_user := env.currentUser
    let final_lines := selectLines args.latest current_user (env.logLines commit_count)
    let calls1 := [logCall, ExtCall.gitConfigUserName]
    if final_lines.isEmpty then
      if args.latest then
        { result := Except.ok (Outcome.emptyLatest current_user), calls := calls1,
          printed := ["No commits found for user " ++ squote ++ current_user ++ squote] }
      else
        { result := Except.ok (Outcome.emptyRange hml_branch prd_branch), calls := calls1,
          printed := ["No commits found between " ++ squote ++ hml_branch ++ squote ++
            " and " ++ squote ++ prd_branch ++ squote] }
    else
      let displayed := final_lines.map (renderLine current_user)
      let commit_hashes := commitHashes final_lines
      if commit_hashes.isEmpty then
        { result := Except.ok Outcome.noValidHashes, calls := calls1,
          printed := displayed ++ ["No valid commit hashes found in the output"] }
      else if args.show' then
        { result := Except.ok Outcome.shownOnly, calls := calls1, printed := displayed }
      else
        let calls2 := calls1 ++ [ExtCall.confirmPrompt]
        if env.confirm then
          match applyStep env.history env.cherryPickOk commit_hashes with
          | some r =>
              { result := Except.ok (if r.ok then Outcome.applied else Outcome.conflict),
                calls := calls2 ++ [ExtCall.gitRevList r.range, ExtCall.gitCherryPick r.input],
                printed := displayed ++
                  [if r.ok then "Successfully cherry-picked commits" else conflictMessage] }
          | none =>
              { result := Except.error ChrError.noCommitsToPick, calls := calls2,
                printed := displayed }
        else
          { result := Except.ok Outcome.declined, calls := calls2, printed := displayed }

/-- The full `pick` subcommand (src/main.rs lines 94-266): current-branch
query, branch-pair resolution, existence checks for the production and
homologation branches, then the selection/apply pipeline. -/
def pick (pfx sp sh : String) (args : PickArgs) (env : GitEnv) : PickRun :=
  match resolve pfx sp sh env.currentBranch with
  | Except.error e =>
      { result := Except.error e, calls := [ExtCall.showCurrent], printed := [] }
  | Except.ok (prd_branch, hml_branch) =>
      if (! env.branchExists prd_branch) then
        { result := Except.error (ChrError.prdNotFound prd_branch),
          calls := [ExtCall.showCurrent, ExtCall.revParseVerify prd_branch], printed := [] }
      else if (! env.branchExists hml_branch) then
        { result := Except.error (ChrError.hmlNotFound hml_branch),
          calls := [ExtCall.showCurrent, ExtCall.revParseVerify prd_branch,
            ExtCall.revParseVerify hml_branch], printed := [] }
      else
        let inner := pickSelection args env hml_branch prd_branch
        { result := inner.result,
          calls := ExtCall.showCurrent :: ExtCall.revParseVerify prd_branch ::
            ExtCall.revParseVerify hml_branch :: inner.calls,
          printed := inner.printed }

/-- Decides whether a resolution result is the "Could not extract card
number" error of src/main.rs lines 122-124. -/
def isCardExtractError : Except ChrError (String × String) → Bool
  | Except.error (ChrError.cardExtract _) => true
  | _ => false

/-- `splitCh` always produces at least one segment. -/
theorem splitCh_ne_nil (c : Char) (l : List Char) : splitCh c l ≠ [] := by
  induction l with
  | nil => simp [splitCh]
  | cons a rest ih =>
    rw [splitCh]
    cases hr : splitCh c rest with
    | nil => simp
    | cons g gs => dsimp only; split <;> simp

/-- A separator-free list is one single segment. -/
theorem splitCh_of_not_mem (c : Char) (l : List Char) (h : c ∉ l) : splitCh c l = [l] := by
  induction l with
  | nil => rfl
  | cons a rest ih =>
    have hac : ¬ (a = c) := fun hac => h (by simp [hac])
    have hr : c ∉ rest := fun hm => h (by simp [hm])
    rw [splitCh, ih hr]
    simp [hac]

/-- Splitting past a separator-free chunk peels off that chunk as the
first segment. -/
theorem splitCh_append (c : Char) (l r : List Char) (h : c ∉ l) :
    splitCh c (l ++ c :: r) = l :: splitCh c r := by
  induction l with
  | nil =>
    rw [List.nil_append, splitCh]
    cases hr : splitCh c r with
    | nil => exact absurd hr (splitCh_ne_nil c r)
    | cons g gs => simp
  | cons a rest ih =>
    have hac : ¬ (a = c) := fun hac => h (by simp [hac])
    have hr : c ∉ rest := fun hm => h (by simp [hm])
    rw [List.cons_append, splitCh, ih hr]
    simp [hac]

/-- Any commit whose position in the linear history lies between the
positions of `a` and `b` is part of the `a^..b` expansion. -/
theorem mem_revListReverse (history : List String) (a b x : String)
    (hx : x ∈ history) (hb : b ∈ history)
    (h1 : history.indexOf a ≤ history.indexOf x)
    (h2 : history.indexOf x ≤ history.indexOf b) :
    x ∈ revListReverse history a b := by
  have hxl : history.indexOf x < history.length := List.indexOf_lt_length.mpr hx
  have hbl : history.indexOf b < history.length := List.indexOf_lt_length.mpr hb
  unfold revListReverse
  have hbound : history.indexOf x - history.indexOf a <
      ((history.take (history.indexOf b + 1)).drop (history.indexOf a)).length := by
    rw [List.length_drop, List.length_take]
    omega
  refine List.mem_iff_getElem.mpr ⟨history.indexOf x - history.indexOf a, hbound, ?_⟩
  rw [List.getElem_drop, List.getElem_take]
  have h3 : history.indexOf a + (history.indexOf x - history.indexOf a) =
      history.indexOf x := by omega
  simp only [h3]
  exact List.getElem_indexOf hxl

/-- On a non-empty hash list the apply step succeeds, with the range built
from the tail (oldest) and head (newest) hashes and the input produced by
the reverse rev-list expansion. -/
theorem applyStep_spec (history : List String) (cherry_ok : Bool) (hashes : List String)
    (h : hashes ≠ []) :
    ∃ oldest newest, hashes.getLast? = some oldest ∧ hashes.head? = some newest ∧
      applyStep history cherry_ok hashes =
        some { range := oldest ++ "^.." ++ newest,
               input := revListReverse history oldest newest, ok := cherry_ok } := by
  cases hashes with
  | nil => exact absurd rfl h
  | cons a rest =>
    cases hgl : (a :: rest).getLast? with
    | none => simp at hgl
    | some oldest =>
      refine ⟨oldest, a, rfl, rfl, ?_⟩
      simp only [applyStep, hgl, List.head?_cons]

/-- When branch resolution fails, `pick` stops after the current-branch
query with that error and prints nothing. -/
theorem pick_resolve_error (pfx sp sh : String) (args : PickArgs) (env : GitEnv) (e : ChrError)
    (h : resolve pfx sp sh env.currentBranch = Except.error e) :
    pick pfx sp sh args env =
      { result := Except.error e, calls := [ExtCall.showCurrent], printed := [] } := by
  unfold pick
  rw [h]

/-- A branch splitting into fewer than two components fails resolution
with the invalid-format error. -/
theorem resolve_short (pfx sp sh b : String) (h : (splitField '-' b).length < 2) :
    resolve pfx sp sh b = Except.error (ChrError.invalidBranchFormat b pfx sp) := by
  unfold resolve
  rw [if_pos h]

/-- A branch with enough components but without the configured prefix
fails resolution with the prefix-mismatch error. -/
theorem resolve_no_pre (pfx sp sh b : String) (h2 : startsWithStr pfx b = false)
    (h1 : ¬ (splitField '-' b).length < 2) :
    resolve pfx sp sh b = Except.error (ChrError.prefixMismatch b pfx sp) := by
  unfold resolve
  rw [if_neg h1, if_pos (by rw [h2]; rfl)]

example : splitField '-' "ZUP-42-prd" = ["ZUP", "42", "prd"] := rfl

example : splitField '-' "" = [""] := rfl

example : trimStr " Alice " = "Alice" := rfl

example : resolve "ZUP-" "-prd" "-hml" "ZUP-42-prd" =
    Except.ok ("ZUP-42-prd", "ZUP-42-hml") := rfl

example : resolve "ZUP-" "-prd" "-hml" "main" =
    Except.error (ChrError.invalidBranchFormat "main" "ZUP-" "-prd") := rfl

example : revListReverse ["c1", "c2", "c3"] "c1" "c3" = ["c1", "c2", "c3"] := by decide

example : selectLines true "Alice" ["h| Alice |m"] = ["h| Alice |m"] := by decide

/-- C1: for every non-empty newest-first hash selection, the apply step
takes `oldest` from the tail and `newest` from the head, forms exactly the
range `oldest^..newest`, and feeds the batch cherry-pick the oldest-first
rev-list expansion of that range; in particular selection
`[c3, c2, c1]` over history `[c1, c2, c3]` yields range `c1^..c3` and
replay order `[c1, c2, c3]`. -/
theorem c1_apply_range_and_order :
    (∀ (history : List String) (cherry_ok : Bool) (hashes : List String), hashes ≠ [] →
      ∃ oldest newest, hashes.getLast? = some oldest ∧ hashes.head? = some newest ∧
        applyStep history cherry_ok hashes =
          some { range := oldest ++ "^.." ++ newest,
                 input := revListReverse history oldest newest, ok := cherry_ok }) ∧
    applyStep ["c1", "c2", "c3"] true ["c3", "c2", "c1"] =
      some { range := "c1^..c3", input := ["c1", "c2", "c3"], ok := true } :=
  ⟨fun history cherry_ok hashes h => applyStep_spec history cherry_ok hashes h, by decide⟩

/-- Witness for C1 at the concrete three-commit selection. -/
theorem c1_witness :
    (["c3", "c2", "c1"] : List String) ≠ [] ∧
    (∃ oldest newest, (["c3", "c2", "c1"] : List String).getLast? = some oldest ∧
      (["c3", "c2", "c1"] : List String).head? = some newest ∧
      applyStep ["c1", "c2", "c3"] true ["c3", "c2", "c1"] =
        some { range := oldest ++ "^.." ++ newest,
               input := revListReverse ["c1", "c2", "c3"] oldest newest, ok := true }) :=
  ⟨by decide, c1_apply_range_and_order.1 ["c1", "c2", "c3"] true ["c3", "c2", "c1"] (by decide)⟩

/-- C10: after the length-at-least-two check has passed, extracting the
component at index 1 always succeeds, so no input whatsoever makes
resolution fail with the card-extraction error: that error branch is
unreachable. -/
theorem c10_card_extraction_unreachable (pfx sp sh branch_name : String) :
    isCardExtractError (resolve pfx sp sh branch_name) = false := by
  unfold resolve
  by_cases h1 : (splitField '-' branch_name).length < 2
  · rw [if_pos h1]
    rfl
  · rw [if_neg h1]
    by_cases h2 : (! startsWithStr pfx branch_name) = true
    · rw [if_pos h2]
      rfl
    · rw [if_neg h2]
      cases hg : (splitField '-' branch_name).get? 1 with
      | none => exact absurd (List.get?_eq_none.mp hg) (by omega)
      | some card => rfl

/-- C5: a current branch that splits into fewer than two components, or
that does not start with the configured prefix, makes `pick` fail fatally
with an invalid-branch-format error whose message shows the expected
pattern, before any branch-existence check, log query or cherry-pick is
issued (the call trace holds only the current-branch query). -/
theorem c5_invalid_branch_fatal (pfx sp sh : String) (args : PickArgs) (env : GitEnv)
    (h : (splitField '-' env.currentBranch).length < 2 ∨
         startsWithStr pfx env.currentBranch = false) :
    ∃ e, pick pfx sp sh args env =
        { result := Except.error e, calls := [ExtCall.showCurrent], printed := [] } ∧
      (e = ChrError.invalidBranchFormat env.currentBranch pfx sp ∨
       e = ChrError.prefixMismatch env.currentBranch pfx sp) ∧
      (∃ s1 s2, errorMessage e = s1 ++ expectedPattern pfx sp ++ s2) ∧
      mainExitCode (Except.error e) = 1 := by
  by_cases h1 : (splitField '-' env.currentBranch).length < 2
  · refine ⟨ChrError.invalidBranchFormat env.currentBranch pfx sp,
      pick_resolve_error pfx sp sh args env _ (resolve_short pfx sp sh _ h1),
      Or.inl rfl, ?_, rfl⟩
    exact ⟨"Current branch " ++ squote ++ env.currentBranch ++ squote ++ " doesn" ++ squote ++
      "t match the expected format " ++ squote, squote, rfl⟩
  · have h2 : startsWithStr pfx env.currentBranch = false := Or.resolve_left h h1
    refine ⟨ChrError.prefixMismatch env.currentBranch pfx sp,
      pick_resolve_error pfx sp sh args env _ (resolve_no_pre pfx sp sh _ h2 h1),
      Or.inr rfl, ?_, rfl⟩
    exact ⟨"Current branch " ++ squote ++ env.currentBranch ++ squote ++ " doesn" ++ squote ++
      "t start with the expected prefix " ++ squote ++ pfx ++ squote ++
      "\nExpected format: " ++ squote, squote, rfl⟩

/-- Witness for C5 on the branch `main` with the default scheme. -/
theorem c5_witness :
    ((splitField '-' "main").length < 2 ∨ startsWithStr "ZUP-" "main" = false) ∧
    (∃ e, pick "ZUP-" "-prd" "-hml" { count := 5, latest := false, show' := false }
        { currentBranch := "main", branchExists := fun _ => false, logSuccess := false,
          logLines := fun _ => [], currentUser := "", history := [], confirm := false,
          cherryPickOk := false } =
        { result := Except.error e, calls := [ExtCall.showCurrent], printed := [] } ∧
      (e = ChrError.invalidBranchFormat "main" "ZUP-" "-prd" ∨
       e = ChrError.prefixMismatch "main" "ZUP-" "-prd") ∧
      (∃ s1 s2, errorMessage e = s1 ++ expectedPattern "ZUP-" "-prd" ++ s2) ∧
      mainExitCode (Except.error e) = 1) :=
  ⟨Or.inl (by decide), c5_invalid_branch_fatal "ZUP-" "-prd" "-hml" _ _ (Or.inl (by decide))⟩

/-- C4 counterexample: with the scheme `{AB, x, y}` the current branch
`AB` ++ `42` ++ `x` = `AB42x` makes resolution fail (it has no `-` to
split on) instead of succeeding as the claim states for every scheme. -/
theorem c4_counterexample :
    resolve "AB" "x" "y" ("AB" ++ "42" ++ "x") =
      Except.error (ChrError.invalidBranchFormat "AB42x" "AB" "x") ∧
    resolve "AB" "x" "y" ("AB" ++ "42" ++ "x") ≠
      Except.ok ("AB" ++ "42" ++ "x", "AB" ++ "42" ++ "y") := by
  refine ⟨rfl, fun hcontra => ?_⟩
  rw [show resolve "AB" "x" "y" ("AB" ++ "42" ++ "x") =
    Except.error (ChrError.invalidBranchFormat "AB42x" "AB" "x") from rfl] at hcontra
  exact Except.noConfusion hcontra

/-- C4 (amended): for every scheme whose prefix consists of a hyphen-free
stem followed by a final `-`, and whose production suffix is empty or
starts with `-` (as the defaults `ZUP-`, `-prd`, `-hml` do), the resolver
succeeds on the branch prefix ++ `42` ++ suffix_prd, yielding that very
branch as production branch and prefix ++ `42` ++ suffix_hml as
homologation branch. -/
theorem c4_resolve_roundtrip (p : List Char) (sp sh : String)
    (hp : ('-' : Char) ∉ p)
    (hsp : sp.data = [] ∨ ∃ r, sp.data = '-' :: r) :
    resolve (String.mk (p ++ ['-'])) sp sh (String.mk (p ++ ['-']) ++ "42" ++ sp) =
      Except.ok (String.mk (p ++ ['-']) ++ "42" ++ sp,
        String.mk (p ++ ['-']) ++ "42" ++ sh) := by
  have hdata : (String.mk (p ++ ['-']) ++ "42" ++ sp).data =
      p ++ '-' :: ('4' :: '2' :: sp.data) := by
    simp [String.data_append]
  have hinner : ∃ tail, splitCh '-' ('4' :: '2' :: sp.data) = ['4', '2'] :: tail := by
    rcases hsp with hsp | ⟨r, hsp⟩
    · rw [hsp]
      exact ⟨[], by decide⟩
    · rw [hsp]
      exact ⟨splitCh '-' r, splitCh_append '-' ['4', '2'] r (by decide)⟩
  obtain ⟨tail, htail⟩ := hinner
  have hparts : splitField '-' (String.mk (p ++ ['-']) ++ "42" ++ sp) =
      String.mk p :: "42" :: tail.map String.mk := by
    unfold splitField
    rw [hdata, splitCh_append '-' p _ hp, htail]
    rfl
  have hpre : startsWithStr (String.mk (p ++ ['-']))
      (String.mk (p ++ ['-']) ++ "42" ++ sp) = true := by
    unfold startsWithStr
    have hsplit2 : p ++ '-' :: ('4' :: '2' :: sp.data) =
        (p ++ ['-']) ++ ('4' :: '2' :: sp.data) := by simp
    rw [hdata, hsplit2]
    exact List.isPrefixOf_iff_prefix.mpr (List.prefix_append _ _)
  simp only [resolve, hparts, hpre]
  rfl

/-- Witness for the amended C4 at the default naming scheme. -/
theorem c4_witness :
    (('-' : Char) ∉ (['Z', 'U', 'P'] : List Char)) ∧
    (("-prd" : String).data = [] ∨ ∃ r, ("-prd" : String).data = '-' :: r) ∧
    resolve (String.mk (['Z', 'U', 'P'] ++ ['-'])) "-prd" "-hml"
        (String.mk (['Z', 'U', 'P'] ++ ['-']) ++ "42" ++ "-prd") =
      Except.ok (String.mk (['Z', 'U', 'P'] ++ ['-']) ++ "42" ++ "-prd",
        String.mk (['Z', 'U', 'P'] ++ ['-']) ++ "42" ++ "-hml") :=
  ⟨by decide, Or.inr ⟨['p', 'r', 'd'], rfl⟩,
    c4_resolve_roundtrip ['Z', 'U', 'P'] "-prd" "-hml" (by decide)
      (Or.inr ⟨['p', 'r', 'd'], rfl⟩)⟩

/-- C3 counterexample: with current user `Alice`, the log line
`h| Alice |m` has raw author field ` Alice ` — differing from the user
only in surrounding whitespace — yet the `--latest` filter retains it and
it contributes its hash, because the code trims the field before
comparing. -/
theorem c3_counterexample :
    ((splitField '|' "h| Alice |m").get? 1).getD "" = " Alice " ∧
    (" Alice " : String) ≠ "Alice" ∧
    selectLines true "Alice" ["h| Alice |m"] = ["h| Alice |m"] ∧
    commitHashes (selectLines true "Alice" ["h| Alice |m"]) = ["h"] := by decide

/-- C3 (amended): under the `--latest` author filter a line is retained
exactly when it has at least three `|`-fields and its author field, after
trimming surrounding whitespace, is exactly string-equal to the current
user's name — no case-folding, but leading/trailing whitespace of the
field is ignored. -/
theorem c3_author_filter_exact (current_user line : String) (lines : List String) :
    line ∈ selectLines true current_user lines ↔
      line ∈ lines ∧ 3 ≤ (splitField '|' line).length ∧
        trimStr (((splitField '|' line).get? 1).getD "") = current_user := by
  unfold selectLines
  rw [if_pos rfl, List.mem_filter]
  unfold isRecordForUser
  simp [Bool.and_eq_true, decide_eq_true_eq, beq_iff_eq, and_assoc]

/-- C2 counterexample: in `--latest` mode the malformed line `garbage` is
not rendered at all (the output holds only the well-formed line), contrary
to the claim that malformed lines are rendered verbatim in every mode. -/
theorem c2_counterexample :
    (splitField '|' "garbage").length < 3 ∧
    "garbage" ∈ (fun _ => ["garbage", "h1|alice|m1"] : Nat → List String) 100 ∧
    (pick "ZUP-" "-prd" "-hml" { count := 5, latest := true, show' := true }
        { currentBranch := "ZUP-42-prd", branchExists := fun _ => true,
          logSuccess := true, logLines := fun _ => ["garbage", "h1|alice|m1"],
          currentUser := "alice", history := ["h1"], confirm := false,
          cherryPickOk := true }).printed = [renderLine "alice" "h1|alice|m1"] ∧
    "garbage" ∉ (pick "ZUP-" "-prd" "-hml" { count := 5, latest := true, show' := true }
        { currentBranch := "ZUP-42-prd", branchExists := fun _ => true,
          logSuccess := true, logLines := fun _ => ["garbage", "h1|alice|m1"],
          currentUser := "alice", history := ["h1"], confirm := false,
          cherryPickOk := true }).printed := by decide

/-- C2 (amended): a line with fewer than three `|`-fields never
contributes a hash to the apply range in either mode; without `--latest`
it is kept in the selection and rendered verbatim; with `--latest` it is
removed from the selection entirely (and hence not displayed at all). -/
theorem c2_malformed_passthrough (current_user line : String) (l1 l2 : List String)
    (h : (splitField '|' line).length < 3) :
    renderLine current_user line = line ∧
    selectLines false current_user (l1 ++ line :: l2) = l1 ++ line :: l2 ∧
    selectLines true current_user (l1 ++ line :: l2) =
      selectLines true current_user (l1 ++ l2) ∧
    commitHashes (l1 ++ line :: l2) = commitHashes (l1 ++ l2) := by
  have hrec : isRecordForUser current_user line = false := by
    simp only [isRecordForUser]
    rw [decide_eq_false (by omega : ¬ 3 ≤ (splitField '|' line).length)]
    rfl
  have hnone : hashOfLine line = none := by
    simp only [hashOfLine]
    rw [if_neg (by omega : ¬ 3 ≤ (splitField '|' line).length)]
  refine ⟨?_, rfl, ?_, ?_⟩
  · simp only [renderLine]
    rw [if_pos h]
  · unfold selectLines
    rw [if_pos rfl, if_pos rfl, List.filter_append, List.filter_append,
      List.filter_cons, hrec]
    rfl
  · unfold commitHashes
    rw [List.filterMap_append, List.filterMap_append, List.filterMap_cons, hnone]

/-- Witness for the amended C2 on a short malformed line. -/
theorem c2_witness :
    (splitField '|' "garbage").length < 3 ∧
    (renderLine "alice" "garbage" = "garbage" ∧
     selectLines false "alice" (["h1|alice|m1"] ++ "garbage" :: []) =
       ["h1|alice|m1"] ++ "garbage" :: [] ∧
     selectLines true "alice" (["h1|alice|m1"] ++ "garbage" :: []) =
       selectLines true "alice" (["h1|alice|m1"] ++ []) ∧
     commitHashes (["h1|alice|m1"] ++ "garbage" :: []) =
       commitHashes (["h1|alice|m1"] ++ [])) :=
  ⟨by decide, c2_malformed_passthrough "alice" "garbage" ["h1|alice|m1"] [] (by decide)⟩

/-- With resolution successful and both branches existing, `pick` defers
to the selection stage, prepending the three setup calls to its trace. -/
theorem pick_ok (pfx sp sh : String) (args : PickArgs) (env : GitEnv) (prd hml : String)
    (hres : resolve pfx sp sh env.currentBranch = Except.ok (prd, hml))
    (hprd : env.branchExists prd = true) (hhml : env.branchExists hml = true) :
    pick pfx sp sh args env =
      { result := (pickSelection args env hml prd).result,
        calls := ExtCall.showCurrent :: ExtCall.revParseVerify prd ::
          ExtCall.revParseVerify hml :: (pickSelection args env hml prd).calls,
        printed := (pickSelection args env hml prd).printed } := by
  unfold pick
  simp only [hres, hprd, hhml, Bool.not_true, Bool.false_eq_true, if_false]

/-- C6: whenever the (possibly filtered) selection comes out empty, `pick`
returns success (exit code 0), prints the per-mode informational message
("no commits for this user" under `--latest`, "no commits between these
branches" otherwise), and neither prompts for confirmation nor issues a
rev-list or cherry-pick call. -/
theorem c6_empty_selection (pfx sp sh : String) (args : PickArgs) (env : GitEnv)
    (prd hml : String)
    (hres : resolve pfx sp sh env.currentBranch = Except.ok (prd, hml))
    (hprd : env.branchExists prd = true) (hhml : env.branchExists hml = true)
    (hlog : env.logSuccess = true)
    (hsel : selectLines args.latest env.currentUser
        (env.logLines (if args.latest then 100 else args.count)) = []) :
    (pick pfx sp sh args env).result =
      Except.ok (if args.latest then Outcome.emptyLatest env.currentUser
        else Outcome.emptyRange hml prd) ∧
    mainExitCode (pick pfx sp sh args env).result = 0 ∧
    (pick pfx sp sh args env).printed =
      [if args.latest then "No commits found for user " ++ squote ++ env.currentUser ++ squote
       else "No commits found between " ++ squote ++ hml ++ squote ++ " and " ++ squote ++
         prd ++ squote] ∧
    ExtCall.confirmPrompt ∉ (pick pfx sp sh args env).calls ∧
    (∀ input, ExtCall.gitCherryPick input ∉ (pick pfx sp sh args env).calls) ∧
    (∀ range, ExtCall.gitRevList range ∉ (pick pfx sp sh args env).calls) := by
  rw [pick_ok pfx sp sh args env prd hml hres hprd hhml]
  by_cases hl : args.latest = true
  · simp only [hl] at hsel
    simp at hsel
    simp [pickSelection, mainExitCode, hlog, hl, hsel]
  · have hl' : args.latest = false := by revert hl; cases args.latest <;> simp
    simp only [hl'] at hsel
    simp at hsel
    simp [pickSelection, mainExitCode, hlog, hl', hsel]

/-- Witness for C6 at an empty log output in the default (non-latest)
mode. -/
theorem c6_witness :
    resolve "ZUP-" "-prd" "-hml" "ZUP-42-prd" = Except.ok ("ZUP-42-prd", "ZUP-42-hml") ∧
    selectLines false "alice" ((fun _ => [] : Nat → List String) (if false then 100 else 5)) =
      [] ∧
    ((pick "ZUP-" "-prd" "-hml" { count := 5, latest := false, show' := false }
        { currentBranch := "ZUP-42-prd", branchExists := fun _ => true,
          logSuccess := true, logLines := fun _ => [], currentUser := "alice",
          history := [], confirm := false, cherryPickOk := true }).result =
      Except.ok (if false then Outcome.emptyLatest "alice"
        else Outcome.emptyRange "ZUP-42-hml" "ZUP-42-prd") ∧
    mainExitCode (pick "ZUP-" "-prd" "-hml" { count := 5, latest := false, show' := false }
        { currentBranch := "ZUP-42-prd", branchExists := fun _ => true,
          logSuccess := true, logLines := fun _ => [], currentUser := "alice",
          history := [], confirm := false, cherryPickOk := true }).result = 0 ∧
    (pick "ZUP-" "-prd" "-hml" { count := 5, latest := false, show' := false }
        { currentBranch := "ZUP-42-prd", branchExists := fun _ => true,
          logSuccess := true, logLines := fun _ => [], currentUser := "alice",
          history := [], confirm := false, cherryPickOk := true }).printed =
      [if false then "No commits found for user " ++ squote ++ "alice" ++ squote
       else "No commits found between " ++ squote ++ "ZUP-42-hml" ++ squote ++ " and " ++
         squote ++ "ZUP-42-prd" ++ squote] ∧
    ExtCall.confirmPrompt ∉ (pick "ZUP-" "-prd" "-hml"
        { count := 5, latest := false, show' := false }
        { currentBranch := "ZUP-42-prd", branchExists := fun _ => true,
          logSuccess := true, logLines := fun _ => [], currentUser := "alice",
          history := [], confirm := false, cherryPickOk := true }).calls ∧
    (∀ input, ExtCall.gitCherryPick input ∉ (pick "ZUP-" "-prd" "-hml"
        { count := 5, latest := false, show' := false }
        { currentBranch := "ZUP-42-prd", branchExists := fun _ => true,
          logSuccess := true, logLines := fun _ => [], currentUser := "alice",
          history := [], confirm := false, cherryPickOk := true }).calls) ∧
    (∀ range, ExtCall.gitRevList range ∉ (pick "ZUP-" "-prd" "-hml"
        { count := 5, latest := false, show' := false }
        { currentBranch := "ZUP-42-prd", branchExists := fun _ => true,
          logSuccess := true, logLines := fun _ => [], currentUser := "alice",
          history := [], confirm := false, cherryPickOk := true }).calls)) :=
  ⟨rfl, rfl,
    c6_empty_selection "ZUP-" "-prd" "-hml" _ _ "ZUP-42-prd" "ZUP-42-hml"
      rfl rfl rfl rfl rfl⟩

/-- C7: when the user confirms and the batch cherry-pick exits non-zero,
`pick` ends its output with the "resolve conflicts" message, issues no
further external call after the cherry-pick (no rollback), and still
returns `Ok`: the process exit code is 0. -/
theorem c7_conflict_surfaced (pfx sp sh : String) (args : PickArgs) (env : GitEnv)
    (prd hml : String)
    (hres : resolve pfx sp sh env.currentBranch = Except.ok (prd, hml))
    (hprd : env.branchExists prd = true) (hhml : env.branchExists hml = true)
    (hlog : env.logSuccess = true)
    (hne : commitHashes (selectLines args.latest env.currentUser
        (env.logLines (if args.latest then 100 else args.count))) ≠ [])
    (hshow : args.show' = false) (hconfirm : env.confirm = true)
    (hfail : env.cherryPickOk = false) :
    ∃ range input,
      pick pfx sp sh args env =
        { result := Except.ok Outcome.conflict,
          calls := [ExtCall.showCurrent, ExtCall.revParseVerify prd, ExtCall.revParseVerify hml,
            ExtCall.gitLog hml prd (if args.latest then 100 else args.count),
            ExtCall.gitConfigUserName, ExtCall.confirmPrompt,
            ExtCall.gitRevList range, ExtCall.gitCherryPick input],
          printed := (selectLines args.latest env.currentUser
              (env.logLines (if args.latest then 100 else args.count))).map
              (renderLine env.currentUser) ++ [conflictMessage] } ∧
      mainExitCode (pick pfx sp sh args env).result = 0 := by
  have hlines : selectLines args.latest env.currentUser
      (env.logLines (if args.latest then 100 else args.count)) ≠ [] := by
    intro hemp
    exact hne (by rw [hemp]; rfl)
  obtain ⟨oldest, newest, hold, hnew, happly⟩ :=
    applyStep_spec env.history env.cherryPickOk _ hne
  rw [hfail] at happly
  refine ⟨oldest ++ "^.." ++ newest, revListReverse env.history oldest newest, ?_⟩
  have hpick : pick pfx sp sh args env =
      { result := Except.ok Outcome.conflict,
        calls := [ExtCall.showCurrent, ExtCall.revParseVerify prd, ExtCall.revParseVerify hml,
          ExtCall.gitLog hml prd (if args.latest then 100 else args.count),
          ExtCall.gitConfigUserName, ExtCall.confirmPrompt,
          ExtCall.gitRevList (oldest ++ "^.." ++ newest),
          ExtCall.gitCherryPick (revListReverse env.history oldest newest)],
        printed := (selectLines args.latest env.currentUser
            (env.logLines (if args.latest then 100 else args.count))).map
            (renderLine env.currentUser) ++ [conflictMessage] } := by
    rw [pick_ok pfx sp sh args env prd hml hres hprd hhml]
    simp [pickSelection, hlog, hlines, hne, hshow, hconfirm, hfail, happly]
  exact ⟨hpick, by rw [hpick]; rfl⟩

/-- Witness for C7 on a one-commit selection whose cherry-pick fails. -/
theorem c7_witness :
    commitHashes (selectLines false "alice"
        ((fun _ => ["c1|alice|m1"] : Nat → List String) (if false then 100 else 5))) ≠ [] ∧
    (∃ range input,
      pick "ZUP-" "-prd" "-hml" { count := 5, latest := false, show' := false }
        { currentBranch := "ZUP-42-prd", branchExists := fun _ => true,
          logSuccess := true, logLines := fun _ => ["c1|alice|m1"],
          currentUser := "alice", history := ["c1"], confirm := true,
          cherryPickOk := false } =
        { result := Except.ok Outcome.conflict,
          calls := [ExtCall.showCurrent, ExtCall.revParseVerify "ZUP-42-prd",
            ExtCall.revParseVerify "ZUP-42-hml",
            ExtCall.gitLog "ZUP-42-hml" "ZUP-42-prd" (if false then 100 else 5),
            ExtCall.gitConfigUserName, ExtCall.confirmPrompt,
            ExtCall.gitRevList range, ExtCall.gitCherryPick input],
          printed := (selectLines false "alice"
              ((fun _ => ["c1|alice|m1"] : Nat → List String) (if false then 100 else 5))).map
              (renderLine "alice") ++ [conflictMessage] } ∧
      mainExitCode (pick "ZUP-" "-prd" "-hml" { count := 5, latest := false, show' := false }
        { currentBranch := "ZUP-42-prd", branchExists := fun _ => true,
          logSuccess := true, logLines := fun _ => ["c1|alice|m1"],
          currentUser := "alice", history := ["c1"], confirm := true,
          cherryPickOk := false }).result = 0) :=
  ⟨by decide,
    c7_conflict_surfaced "ZUP-" "-prd" "-hml" _ _ "ZUP-42-prd" "ZUP-42-hml"
      rfl rfl rfl rfl (by decide) rfl rfl rfl⟩

/-- The call trace of the selection stage always begins with the single
log query and continues with at most the user lookup, the confirmation
prompt, and the rev-list/cherry-pick pair. -/
theorem pickSelection_calls_cases (args : PickArgs) (env : GitEnv) (hml prd : String) :
    (pickSelection args env hml prd).calls =
      [ExtCall.gitLog hml prd (if args.latest then 100 else args.count)] ∨
    (pickSelection args env hml prd).calls =
      [ExtCall.gitLog hml prd (if args.latest then 100 else args.count),
       ExtCall.gitConfigUserName] ∨
    (pickSelection args env hml prd).calls =
      [ExtCall.gitLog hml prd (if args.latest then 100 else args.count),
       ExtCall.gitConfigUserName, ExtCall.confirmPrompt] ∨
    (∃ r i, (pickSelection args env hml prd).calls =
      [ExtCall.gitLog hml prd (if args.latest then 100 else args.count),
       ExtCall.gitConfigUserName, ExtCall.confirmPrompt,
       ExtCall.gitRevList r, ExtCall.gitCherryPick i]) := by
  simp only [pickSelection]
  generalize (if args.latest = true then 100 else args.count) = cc
  repeat' split
  all_goals first
    | exact Or.inl rfl
    | exact Or.inr (Or.inl rfl)
    | (refine Or.inr (Or.inr (Or.inl ?_)); simp; done)
    | (rename_i x r heq hok
       refine Or.inr (Or.inr (Or.inr ⟨r.range, r.input, ?_⟩))
       simp)

/-- The selection stage always issues the log query with the bound 100
under `--latest` and `--count` otherwise, and never issues any other log
query. -/
theorem pickSelection_gitLog_calls (args : PickArgs) (env : GitEnv) (hml prd h2 p2 : String)
    (n : Nat) :
    (ExtCall.gitLog hml prd (if args.latest then 100 else args.count) ∈
      (pickSelection args env hml prd).calls) ∧
    (ExtCall.gitLog h2 p2 n ∈ (pickSelection args env hml prd).calls →
      h2 = hml ∧ p2 = prd ∧ n = (if args.latest then 100 else args.count)) := by
  obtain h | h | h | ⟨r, i, h⟩ := pickSelection_calls_cases args env hml prd <;>
    rw [h] <;>
    exact ⟨by simp, by intro hmem; simp at hmem; exact hmem⟩

/-- The selection never keeps more lines than the log returned. -/
theorem selectLines_length_le (latest : Bool) (u : String) (lines : List String) :
    (selectLines latest u lines).length ≤ lines.length := by
  unfold selectLines
  split
  · exact List.length_filter_le _ _
  · exact Nat.le_refl _

/-- C8: the bound handed to the log query is exactly 100 with `--latest`
and exactly `--count` otherwise (and no other log query is made); provided
the external log honors its `-N` bound, the selection can hold at most
that many records. -/
theorem c8_log_bound (pfx sp sh : String) (args : PickArgs) (env : GitEnv) (prd hml : String)
    (hres : resolve pfx sp sh env.currentBranch = Except.ok (prd, hml))
    (hprd : env.branchExists prd = true) (hhml : env.branchExists hml = true)
    (hgit : (env.logLines (if args.latest then 100 else args.count)).length ≤
      (if args.latest then 100 else args.count)) :
    (ExtCall.gitLog hml prd (if args.latest then 100 else args.count) ∈
      (pick pfx sp sh args env).calls) ∧
    (∀ h2 p2 n, ExtCall.gitLog h2 p2 n ∈ (pick pfx sp sh args env).calls →
      h2 = hml ∧ p2 = prd ∧ n = (if args.latest then 100 else args.count)) ∧
    (selectLines args.latest env.currentUser
        (env.logLines (if args.latest then 100 else args.count))).length ≤
      (if args.latest then 100 else args.count) := by
  rw [pick_ok pfx sp sh args env prd hml hres hprd hhml]
  refine ⟨?_, ?_, ?_⟩
  · exact List.mem_cons_of_mem _ (List.mem_cons_of_mem _ (List.mem_cons_of_mem _
      (pickSelection_gitLog_calls args env hml prd hml prd 0).1))
  · intro h2 p2 n hmem
    simp only [List.mem_cons] at hmem
    rcases hmem with hmem | hmem | hmem | hmem
    · exact absurd hmem (by simp)
    · exact absurd hmem (by simp)
    · exact absurd hmem (by simp)
    · exact (pickSelection_gitLog_calls args env hml prd h2 p2 n).2 hmem
  · exact Nat.le_trans (selectLines_length_le _ _ _) hgit

/-- Witness for C8 in latest mode with a log response below the bound. -/
theorem c8_witness :
    ((fun _ => ["c1|alice|m1"] : Nat → List String)
        (if true then 100 else 5)).length ≤ (if true then 100 else 5) ∧
    ((ExtCall.gitLog "ZUP-42-hml" "ZUP-42-prd" (if true then 100 else 5) ∈
      (pick "ZUP-" "-prd" "-hml" { count := 5, latest := true, show' := true }
        { currentBranch := "ZUP-42-prd", branchExists := fun _ => true,
          logSuccess := true, logLines := fun _ => ["c1|alice|m1"],
          currentUser := "alice", history := ["c1"], confirm := true,
          cherryPickOk := true }).calls) ∧
    (∀ h2 p2 n, ExtCall.gitLog h2 p2 n ∈
        (pick "ZUP-" "-prd" "-hml" { count := 5, latest := true, show' := true }
        { currentBranch := "ZUP-42-prd", branchExists := fun _ => true,
          logSuccess := true, logLines := fun _ => ["c1|alice|m1"],
          currentUser := "alice", history := ["c1"], confirm := true,
          cherryPickOk := true }).calls →
      h2 = "ZUP-42-hml" ∧ p2 = "ZUP-42-prd" ∧ n = (if true then 100 else 5)) ∧
    (selectLines true "alice" ((fun _ => ["c1|alice|m1"] : Nat → List String)
        (if true then 100 else 5))).length ≤ (if true then 100 else 5)) :=
  ⟨by decide,
    c8_log_bound "ZUP-" "-prd" "-hml" _ _ "ZUP-42-prd" "ZUP-42-hml"
      rfl rfl rfl (by decide)⟩

/-- C9: the sequence replayed by the apply step is the rev-list expansion
of the oldest..newest range, not the filtered hash list: under the
`--latest` author filter, any commit lying chronologically between the
selection's oldest and newest commits is fed to the cherry-pick even when
it was excluded from the selection (e.g. because it has another author). -/
theorem c9_expansion_includes_excluded (pfx sp sh : String) (args : PickArgs) (env : GitEnv)
    (prd hml : String) (c oldest newest : String)
    (hres : resolve pfx sp sh env.currentBranch = Except.ok (prd, hml))
    (hprd : env.branchExists prd = true) (hhml : env.branchExists hml = true)
    (hlog : env.logSuccess = true)
    (hlatest : args.latest = true)
    (hshow : args.show' = false) (hconfirm : env.confirm = true)
    (hold : (commitHashes (selectLines args.latest env.currentUser
        (env.logLines (if args.latest then 100 else args.count)))).getLast? = some oldest)
    (hnew : (commitHashes (selectLines args.latest env.currentUser
        (env.logLines (if args.latest then 100 else args.count)))).head? = some newest)
    (hcmem : c ∈ env.history) (hnewmem : newest ∈ env.history)
    (h1 : env.history.indexOf oldest ≤ env.history.indexOf c)
    (h2 : env.history.indexOf c ≤ env.history.indexOf newest)
    (hnot : c ∉ commitHashes (selectLines args.latest env.currentUser
        (env.logLines (if args.latest then 100 else args.count)))) :
    (ExtCall.gitCherryPick (revListReverse env.history oldest newest) ∈
      (pick pfx sp sh args env).calls) ∧
    c ∈ revListReverse env.history oldest newest ∧
    c ∉ commitHashes (selectLines args.latest env.currentUser
      (env.logLines (if args.latest then 100 else args.count))) := by
  have hne : commitHashes (selectLines args.latest env.currentUser
      (env.logLines (if args.latest then 100 else args.count))) ≠ [] := by
    intro hemp
    rw [hemp] at hnew
    exact Option.noConfusion hnew
  have hlines : selectLines args.latest env.currentUser
      (env.logLines (if args.latest then 100 else args.count)) ≠ [] := by
    intro hemp
    exact hne (by rw [hemp]; rfl)
  have happly : applyStep env.history env.cherryPickOk
      (commitHashes (selectLines args.latest env.currentUser
        (env.logLines (if args.latest then 100 else args.count)))) =
      some { range := oldest ++ "^.." ++ newest,
             input := revListReverse env.history oldest newest,
             ok := env.cherryPickOk } := by
    unfold applyStep
    rw [hold, hnew]
  refine ⟨?_, mem_revListReverse env.history oldest newest c hcmem hnewmem h1 h2, hnot⟩
  rw [pick_ok pfx sp sh args env prd hml hres hprd hhml]
  simp [pickSelection, hlog, hlines, hne, hshow, hconfirm, happly]

/-- Witness for C9: bob's commit c2 sits between alice's c1 and c3; the
`--latest` filter keeps only alice's two commits, yet c2 is replayed. -/
theorem c9_witness :
    ((commitHashes (selectLines true "alice"
        ((fun _ => ["c3|alice|m3", "c2|bob|m2", "c1|alice|m1"] : Nat → List String)
          (if true then 100 else 5)))).getLast? = some "c1") ∧
    ((commitHashes (selectLines true "alice"
        ((fun _ => ["c3|alice|m3", "c2|bob|m2", "c1|alice|m1"] : Nat → List String)
          (if true then 100 else 5)))).head? = some "c3") ∧
    ("c2" ∉ commitHashes (selectLines true "alice"
        ((fun _ => ["c3|alice|m3", "c2|bob|m2", "c1|alice|m1"] : Nat → List String)
          (if true then 100 else 5)))) ∧
    ((ExtCall.gitCherryPick (revListReverse ["c1", "c2", "c3"] "c1" "c3") ∈
      (pick "ZUP-" "-prd" "-hml" { count := 5, latest := true, show' := false }
        { currentBranch := "ZUP-42-prd", branchExists := fun _ => true,
          logSuccess := true,
          logLines := fun _ => ["c3|alice|m3", "c2|bob|m2", "c1|alice|m1"],
          currentUser := "alice", history := ["c1", "c2", "c3"], confirm := true,
          cherryPickOk := true }).calls) ∧
    "c2" ∈ revListReverse ["c1", "c2", "c3"] "c1" "c3" ∧
    "c2" ∉ commitHashes (selectLines true "alice"
      ((fun _ => ["c3|alice|m3", "c2|bob|m2", "c1|alice|m1"] : Nat → List String)
        (if true then 100 else 5)))) :=
  ⟨by decide, by decide, by decide,
    c9_expansion_includes_excluded "ZUP-" "-prd" "-hml"
      { count := 5, latest := true, show' := false }
      { currentBranch := "ZUP-42-prd", branchExists := fun _ => true,
        logSuccess := true,
        logLines := fun _ => ["c3|alice|m3", "c2|bob|m2", "c1|alice|m1"],
        currentUser := "alice", history := ["c1", "c2", "c3"], confirm := true,
        cherryPickOk := true }
      "ZUP-42-prd" "ZUP-42-hml" "c2" "c1" "c3"
      rfl rfl rfl rfl rfl rfl rfl (by decide) (by decide) (by decide) (by decide)
      (by decide) (by decide) (by decide)⟩
